import Mathlib

/-!
Verification of the TouchWand WallWand endpoint discovery and state
synchronization engine.  The definitions below are a shallow embedding of the
device driver (`WallWandDevice` in the repository; the discovery/sync/health
logic is shared between the two driver revisions, the command queue exists in
the later revision).  JavaScript objects holding endpoint types and capability
values are modelled as association lists; host capabilities as a list of
typed capability identifiers; the fired flow triggers as an event list.
Protocol interactions (`GET` results, `registerCapability` outcomes) are
inputs supplied by the environment.
-/

namespace WallWand

/-- Models `WallWandDevice.DEVICE_TYPES`: the two supported endpoint classes. -/
inductive DeviceType
  | dimmer
  | switch
  deriving DecidableEq, Repr

/-- Models `WallWandDevice.Z_WAVE_MAX_DIM_VALUE = 99`. -/
def Z_WAVE_MAX_DIM_VALUE : ℚ := 99

/-- Models `WallWandDevice.COMMAND_DELAY_MS = 250` (second driver revision). -/
def COMMAND_DELAY_MS : Nat := 250

/-- A host-visible capability identifier: `onoff.ep<n>`, `dim.ep<n>`, or some
other capability that is not an endpoint capability (the model reserves
`other` for capability ids that match neither endpoint family and in
particular do not match the `.ep<n>` pattern). -/
inductive Cap
  | onoff (ep : Nat)
  | dim (ep : Nat)
  | other (s : String)
  deriving DecidableEq, Repr

/-- A stored capability value: boolean (onoff) or numeric (dim). -/
inductive CapValue
  | b (x : Bool)
  | q (x : ℚ)
  deriving DecidableEq, Repr

/-- Flow trigger events fired through `_triggerEndpoint*`. -/
inductive Ev
  | turnedOn (ep : Nat)
  | turnedOff (ep : Nat)
  | stateChanged (ep : Nat) (v : Bool)
  | dimChanged (ep : Nat) (v : ℚ)
  deriving DecidableEq, Repr

/-- Association-list lookup (models reading a key of a JS object). -/
def lookupA {α : Type} : List (Nat × α) → Nat → Option α
  | [], _ => none
  | (k', v') :: rest, k => if k' = k then some v' else lookupA rest k

/-- Association-list update (models assigning a key of a JS object). -/
def setA {α : Type} : List (Nat × α) → Nat → α → List (Nat × α)
  | [], k, v => [(k, v)]
  | (k', v') :: rest, k, v =>
      if k' = k then (k, v) :: rest else (k', v') :: setA rest k v

/-- Association-list lookup keyed by capability id. -/
def lookupC : List (Cap × CapValue) → Cap → Option CapValue
  | [], _ => none
  | (k', v') :: rest, k => if k' = k then some v' else lookupC rest k

/-- Association-list update keyed by capability id. -/
def setC : List (Cap × CapValue) → Cap → CapValue → List (Cap × CapValue)
  | [], k, v => [(k, v)]
  | (k', v') :: rest, k, v =>
      if k' = k then (k, v) :: rest else (k', v') :: setC rest k v

@[simp] theorem lookupA_setA_self {α : Type} (l : List (Nat × α)) (k : Nat) (v : α) :
    lookupA (setA l k v) k = some v := by
  induction l with
  | nil => simp [setA, lookupA]
  | cons p rest ih =>
      obtain ⟨k', v'⟩ := p
      by_cases h : k' = k <;> simp [setA, lookupA, h, ih]

theorem lookupA_setA_ne {α : Type} (l : List (Nat × α)) (k k' : Nat) (v : α)
    (h : k ≠ k') : lookupA (setA l k v) k' = lookupA l k' := by
  induction l with
  | nil => simp [setA, lookupA, h]
  | cons p rest ih =>
      obtain ⟨k₀, v₀⟩ := p
      by_cases h₀ : k₀ = k
      · subst h₀; simp [setA, lookupA, h]
      · simp [setA, lookupA, h₀, ih]

@[simp] theorem lookupC_setC_self (l : List (Cap × CapValue)) (k : Cap) (v : CapValue) :
    lookupC (setC l k v) k = some v := by
  induction l with
  | nil => simp [setC, lookupC]
  | cons p rest ih =>
      obtain ⟨k', v'⟩ := p
      by_cases h : k' = k <;> simp [setC, lookupC, h, ih]

theorem lookupC_setC_ne (l : List (Cap × CapValue)) (k k' : Cap) (v : CapValue)
    (h : k ≠ k') : lookupC (setC l k v) k' = lookupC l k' := by
  induction l with
  | nil => simp [setC, lookupC, h]
  | cons p rest ih =>
      obtain ⟨k₀, v₀⟩ := p
      by_cases h₀ : k₀ = k
      · subst h₀; simp [setC, lookupC, h]
      · simp [setC, lookupC, h₀, ih]

/-- Writing back the value already stored leaves the store unchanged. -/
theorem setC_noop (l : List (Cap × CapValue)) (k : Cap) (v : CapValue)
    (h : lookupC l k = some v) : setC l k v = l := by
  induction l with
  | nil => simp [lookupC] at h
  | cons p rest ih =>
      obtain ⟨k', v'⟩ := p
      by_cases hk : k' = k
      · subst hk
        simp [lookupC] at h
        simp [setC, h]
      · simp [lookupC, hk] at h
        simp [setC, hk, ih h]

/-- Overwriting twice with the same value equals overwriting once. -/
theorem setC_setC_self (l : List (Cap × CapValue)) (k : Cap) (v : CapValue) :
    setC (setC l k v) k v = setC l k v :=
  setC_noop _ _ _ (lookupC_setC_self l k v)

/-- The device-side state touched by the engine: the endpoint-type registry
(`this._endpointTypes`), the set of host capabilities, the stored capability
values, the persisted copy of the registry (the `endpointTypes` store value),
and the flow trigger events fired so far. -/
structure DeviceState where
  endpointTypes : List (Nat × Option DeviceType)
  caps : List Cap
  capValues : List (Cap × CapValue)
  store : List (Nat × Option DeviceType)
  events : List Ev
  deriving DecidableEq, Repr

/-- Models `_ensureCapability`: add the capability if absent (idempotent). -/
def _ensureCapability (s : DeviceState) (c : Cap) : DeviceState :=
  if c ∈ s.caps then s else { s with caps := s.caps ++ [c] }

/-- Models `_removeIfPresent`: remove the capability (and its stored value) if
present (idempotent). -/
def _removeIfPresent (s : DeviceState) (c : Cap) : DeviceState :=
  if c ∈ s.caps then
    { s with caps := s.caps.filter (· ≠ c),
             capValues := s.capValues.filter (fun p => p.1 ≠ c) }
  else s

/-- Models `_removeEndpointCapabilities`: remove `dim.ep<n>` then `onoff.ep<n>`. -/
def _removeEndpointCapabilities (s : DeviceState) (ep : Nat) : DeviceState :=
  _removeIfPresent (_removeIfPresent s (.dim ep)) (.onoff ep)

/-- Models `_setOnOff`: look up the previous value, write the new boolean value, and
fire `endpoint_turned_on`/`endpoint_turned_off` plus `endpoint_state_changed`
only when the value changed.  (The JS guard on a non-string capability id has
no counterpart: `Cap` is already well formed.) -/
def _setOnOff (s : DeviceState) (cap : Cap) (value : Bool) (ep : Nat) : DeviceState :=
  if cap ∈ s.caps then
    let oldValue := lookupC s.capValues cap
    let newValue := value
    let s1 := { s with capValues := setC s.capValues cap (.b newValue) }
    if oldValue = some (.b newValue) then s1
    else
      { s1 with events := s1.events ++
          ((if newValue then [Ev.turnedOn ep] else [Ev.turnedOff ep]) ++
            [Ev.stateChanged ep newValue]) }
  else s

/-- Models `_setDim`: reject an invalid endpoint number, clamp the value to `[0,1]`,
write it, and fire `endpoint_dim_changed` only when the value changed. -/
def _setDim (s : DeviceState) (cap : Cap) (value01 : ℚ) (ep : Nat) : DeviceState :=
  if ep < 1 then s
  else
    let normalizedValue := max 0 (min 1 value01)
    if cap ∈ s.caps then
      let oldValue := lookupC s.capValues cap
      let s1 := { s with capValues := setC s.capValues cap (.q normalizedValue) }
      if oldValue = some (.q normalizedValue) then s1
      else { s1 with events := s1.events ++ [Ev.dimChanged ep normalizedValue] }
    else s

/-- The `Value` field of a binary-switch report: the `'on/enable'` token, an
integer, or anything else. -/
inductive SwitchVal
  | onEnable
  | num (n : ℤ)
  | otherVal
  deriving DecidableEq, Repr

/-- Outcome of the protocol `GET` performed by a sync, as supplied by the
environment: the command class (or its `GET`) may be missing, the report may
be missing/malformed (`_isValidReport` fails), a valid multilevel report
carries a `Current Value`, a valid binary report carries a `Value`, or the
`GET` call throws (with or without `timeout` in the error message). -/
inductive FetchOutcome
  | ccMissing
  | badReport
  | dimReport (v : ℚ)
  | binReport (v : SwitchVal)
  | errTimeout
  | errOther
  deriving DecidableEq, Repr

/-- Result of a type-specific sync body: returned `true`, returned `false`,
or threw (split by whether the error message contains `timeout`). -/
inductive SyncRes
  | success
  | failure
  | thrownTimeout
  | thrownOther
  deriving DecidableEq, Repr

/-- Models `_syncDimmerState`: ensure both controls, issue the multilevel `GET`, and
on a valid report apply `onoff = value > 0` and `dim = value / 99`.  A binary
report lacks the `Current Value` field required by `_isValidReport`. -/
def _syncDimmerState (s : DeviceState) (ep : Nat) (fetch : FetchOutcome) :
    DeviceState × SyncRes :=
  let s1 := _ensureCapability (_ensureCapability s (.onoff ep)) (.dim ep)
  match fetch with
  | .ccMissing => (s1, .failure)
  | .badReport => (s1, .failure)
  | .binReport _ => (s1, .failure)
  | .dimReport v =>
      let s2 := _setOnOff s1 (.onoff ep) (decide (0 < v)) ep
      let s3 := _setDim s2 (.dim ep) (v / Z_WAVE_MAX_DIM_VALUE) ep
      (s3, .success)
  | .errTimeout => (s1, .thrownTimeout)
  | .errOther => (s1, .thrownOther)

/-- JS truthiness of a binary report `Value`: `'on/enable'` or the integer 1. -/
def switchValIsOn : SwitchVal → Bool
  | .onEnable => true
  | .num n => n = 1
  | .otherVal => false

/-- Models `_syncSwitchState`: drop any dim control, ensure the onoff control, issue
the binary `GET`, and on a valid report apply the boolean value.  A
multilevel report lacks the `Value` field required by `_isValidReport`. -/
def _syncSwitchState (s : DeviceState) (ep : Nat) (fetch : FetchOutcome) :
    DeviceState × SyncRes :=
  let s1 := _ensureCapability (_removeIfPresent s (.dim ep)) (.onoff ep)
  match fetch with
  | .ccMissing => (s1, .failure)
  | .badReport => (s1, .failure)
  | .dimReport _ => (s1, .failure)
  | .binReport v =>
      let s2 := _setOnOff s1 (.onoff ep) (switchValIsOn v) ep
      (s2, .success)
  | .errTimeout => (s1, .thrownTimeout)
  | .errOther => (s1, .thrownOther)

/-- The demotion performed by `_syncOneEndpointState` on a non-timeout
failure: null the registry entry, remove both controls, persist. -/
def demoteEndpoint (s : DeviceState) (ep : Nat) : DeviceState :=
  let s1 := { s with endpointTypes := setA s.endpointTypes ep none }
  let s2 := _removeEndpointCapabilities s1 ep
  { s2 with store := s2.endpointTypes }

/-- Models `_syncOneEndpointState`: a vanished endpoint loses its controls; a
null/unknown type is a no-op; otherwise the type-specific sync runs, a
`false` result is turned into a thrown non-timeout error
(`'Invalid or missing report during sync'`), a timeout is logged and
ignored, and any other failure demotes the endpoint. -/
def _syncOneEndpointState (s : DeviceState) (ep : Nat) (endpointPresent : Bool)
    (fetch : FetchOutcome) : DeviceState :=
  let deviceType := lookupA s.endpointTypes ep
  if !endpointPresent then _removeEndpointCapabilities s ep
  else
    match deviceType with
    | none => s
    | some none => s
    | some (some dt) =>
        let r := match dt with
          | .dimmer => _syncDimmerState s ep fetch
          | .switch => _syncSwitchState s ep fetch
        match r.2 with
        | .success => r.1
        | .thrownTimeout => r.1
        | .failure => demoteEndpoint r.1 ep
        | .thrownOther => demoteEndpoint r.1 ep

/-- An endpoint descriptor from the topology snapshot
(`node.MultiChannelNodes[id]`): its generic device class and which of the two
relevant command classes it exposes. -/
structure EndpointDesc where
  deviceClassGeneric : String
  hasMultilevelCC : Bool
  hasBinaryCC : Bool
  deriving DecidableEq, Repr

/-- Models `_detectEndpointType`: dimmer iff multilevel generic class and multilevel
command class; switch iff binary generic class and binary command class. -/
def _detectEndpointType (d : EndpointDesc) : Option DeviceType :=
  if d.deviceClassGeneric = "GENERIC_TYPE_SWITCH_MULTILEVEL" ∧ d.hasMultilevelCC then
    some .dimmer
  else if d.deviceClassGeneric = "GENERIC_TYPE_SWITCH_BINARY" ∧ d.hasBinaryCC then
    some .switch
  else none

/-- Outcome of one `registerCapability` call, as supplied by the environment:
success, an error whose message contains `timeout`, an error whose message
contains `capability get command failed`, or any other error. -/
inductive RegOutcome
  | ok
  | errTimeout
  | errGetFailed
  | errOther
  deriving DecidableEq, Repr

/-- Per-endpoint registration outcomes supplied by the environment. -/
structure RegEnv where
  onoffOutcome : Nat → RegOutcome
  dimOutcome : Nat → RegOutcome

/-- Models `_registerEndpointCapabilities` (first driver revision); it swallows a
`registerCapability` error whose message contains `timeout` or
`capability get command failed` and rethrows anything else. -/
def regSwallowed : RegOutcome → Bool
  | .ok => true
  | .errTimeout => true
  | .errGetFailed => true
  | .errOther => false

/-- The error rethrown by `_registerEndpointCapabilities`, if any: the first
non-swallowed outcome (for a dimmer the dim registration is only reached when
the onoff registration did not throw). -/
def regThrown (env : RegEnv) (ep : Nat) : DeviceType → Option RegOutcome
  | .dimmer =>
      if regSwallowed (env.onoffOutcome ep) then
        if regSwallowed (env.dimOutcome ep) then none else some (env.dimOutcome ep)
      else some (env.onoffOutcome ep)
  | .switch =>
      if regSwallowed (env.onoffOutcome ep) then none else some (env.onoffOutcome ep)

/-- Whether a rethrown registration error message contains `timeout` (it never
does: the timeout case is swallowed inside `_registerEndpointCapabilities`). -/
def regOutcomeHasTimeout : RegOutcome → Bool
  | .errTimeout => true
  | _ => false

/-- Whether `this._endpointTypes[id]` is truthy: present with a non-null type. -/
def truthyType : Option (Option DeviceType) → Bool
  | some (some _) => true
  | _ => false

/-- Models `_discoverOneEndpoint` (first driver revision): skip a missing descriptor
or an already-classified id (a null entry is falsy, so a demoted id is
re-examined); an unsupported descriptor records `null` and removes the
controls; otherwise register the capabilities, commit the type and persist —
on a thrown registration error, commit anyway when the message contains
`timeout`, else only log, leaving the id unclassified for this pass.
`registerCapability` maps a capability to a command-class handler and does not
add or remove host capabilities, so registration leaves the state unchanged. -/
def _discoverOneEndpoint (env : RegEnv) (s : DeviceState) (ep : Nat)
    (endpoint : Option EndpointDesc) : DeviceState :=
  match endpoint with
  | none => s
  | some d =>
      if truthyType (lookupA s.endpointTypes ep) then s
      else
        match _detectEndpointType d with
        | none =>
            let s1 := { s with endpointTypes := setA s.endpointTypes ep none }
            _removeEndpointCapabilities s1 ep
        | some dt =>
            match regThrown env ep dt with
            | none =>
                let s1 := { s with endpointTypes := setA s.endpointTypes ep (some dt) }
                { s1 with store := s1.endpointTypes }
            | some e =>
                if regOutcomeHasTimeout e then
                  let s1 := { s with endpointTypes := setA s.endpointTypes ep (some dt) }
                  { s1 with store := s1.endpointTypes }
                else s

/-- Does a capability id match the `.ep<n>` pattern (`onoff.ep<n>` and
`dim.ep<n>` do; `other` ids by convention do not)? -/
def isEpCap : Cap → Bool
  | .onoff _ => true
  | .dim _ => true
  | .other _ => false

/-- Models `_cleanupAllEndpoints`: wipe the registry, persist the empty registry, and
remove every manifest endpoint capability that is present.  (The blanking of
label settings touches only settings, which are outside the modelled state.) -/
def _cleanupAllEndpoints (manifest : List Cap) (s : DeviceState) : DeviceState :=
  let s1 := { s with endpointTypes := [], store := [] }
  manifest.foldl (fun acc c => if isEpCap c then _removeIfPresent acc c else acc) s1

/-- Models `_discoverAllEndpoints`: an empty topology snapshot wipes everything;
otherwise each entry with a valid id (≥ 1) is discovered in order. -/
def _discoverAllEndpoints (env : RegEnv) (manifest : List Cap) (s : DeviceState)
    (topo : List (Nat × EndpointDesc)) : DeviceState :=
  if topo = [] then _cleanupAllEndpoints manifest s
  else topo.foldl
    (fun acc p => if p.1 < 1 then acc else _discoverOneEndpoint env acc p.1 (some p.2)) s

/-- Count of capabilities whose id starts with `onoff.ep` or `dim.ep`. -/
def endpointCapCount (s : DeviceState) : Nat := (s.caps.filter isEpCap).length

/-- Models `_checkDeviceHealth`: when the registry has no entries while endpoint
capabilities exist, re-run full discovery and persist; otherwise do nothing.
Returns the new state and whether rediscovery was triggered. -/
def _checkDeviceHealth (env : RegEnv) (manifest : List Cap)
    (topo : List (Nat × EndpointDesc)) (s : DeviceState) : DeviceState × Bool :=
  let discoveredCount := s.endpointTypes.length
  let capabilityCount := endpointCapCount s
  if discoveredCount = 0 ∧ capabilityCount > 0 then
    let s1 := _discoverAllEndpoints env manifest s topo
    ({ s1 with store := s1.endpointTypes }, true)
  else (s, false)

/-! ### Root-report debouncer

Both root listeners share the single field `this._syncTimeout`: each clears
whatever timeout is stored there and installs a new one scoped to its own
device-type class, firing `_syncEndpointsByType` for that class after
`SYNC_DEBOUNCE_MS`. -/

/-- The debouncer state: the single `_syncTimeout` slot, holding the class
whose bulk resync is scheduled and the absolute fire time, or nothing. -/
structure Debouncer where
  pending : Option (DeviceType × Nat)
  deriving DecidableEq, Repr

/-- A root (endpoint-less) report for class `c` arriving at time `now`:
`clearTimeout(this._syncTimeout)` cancels whatever timer is pending —
whichever class it was scoped to — and a fresh timer scoped to `c` is
installed with the quiet window `window`. -/
def onRootReport (window : Nat) (d : Debouncer) (c : DeviceType) (now : Nat) :
    Debouncer :=
  let _ := d.pending
  { pending := some (c, now + window) }

/-- The class for which `d` has a pending bulk-resync timer, with its fire
time. -/
def pendingFor (d : Debouncer) (c : DeviceType) : Option Nat :=
  match d.pending with
  | some (c0, t) => if c0 = c then some t else none
  | none => none

/-- Run the debouncer over a time-ordered list of root reports: a pending
timer whose fire time has been reached before the next report fires its bulk
resync; a pending timer still in its quiet window is cancelled by the next
report.  Returns the `(class, time)` list of `_syncEndpointsByType` calls. -/
def debounceRun (window : Nat) : Debouncer → List (DeviceType × Nat) →
    List (DeviceType × Nat)
  | d, [] =>
      match d.pending with
      | some p => [p]
      | none => []
  | d, (c, t) :: rest =>
      match d.pending with
      | some (c0, t0) =>
          if t0 ≤ t then (c0, t0) :: debounceRun window (onRootReport window d c t) rest
          else debounceRun window (onRootReport window d c t) rest
      | none => debounceRun window (onRootReport window d c t) rest

/-! ### Command queue (second driver revision)

`queueCapabilityCommand` pushes `{capabilityId, value, resolve, reject}` onto
`this._commandQueue` and starts `_processCommandQueue` unless it is already
running; the drain loop shifts the head, applies it via
`triggerCapabilityListener` (resolving or rejecting that command's promise),
and, when the queue is still non-empty, waits `COMMAND_DELAY_MS` before the
next iteration.  The loop's suspension points are the application and the
delay; everything between them runs atomically on the single JS thread, so the
model steps between suspension points. -/

/-- A queued command: capability id and target value. -/
structure QCmd where
  capabilityId : Cap
  value : CapValue
  deriving DecidableEq, Repr

/-- Where the single drain loop currently is: not running
(`_isProcessingQueue` false), awaiting `triggerCapabilityListener` for a
command (with its start time), or awaiting `_delay` (with the wake time). -/
inductive LoopPhase
  | idle
  | applying (c : QCmd) (start : Nat)
  | delaying (wake : Nat)
  deriving DecidableEq, Repr

/-- The queue system state: the pending command list, the drain loop's
position, the history of starts, completions and settled promises (command,
`true` = resolved / `false` = rejected), the clock, and the full enqueue
history. -/
structure QState where
  queue : List QCmd
  phase : LoopPhase
  started : List (QCmd × Nat)
  applied : List (QCmd × Nat)
  settled : List (QCmd × Bool)
  now : Nat
  enqueued : List QCmd
  deriving DecidableEq, Repr

/-- The initial queue state (`onInit`): empty queue, loop not running. -/
def qInit : QState :=
  { queue := [], phase := .idle, started := [], applied := [], settled := [],
    now := 0, enqueued := [] }

/-- Models `queueCapabilityCommand`: push the command; when the loop is not running
it is started and runs synchronously up to its first suspension point, i.e.
it shifts the head of the queue and begins applying it. -/
def enqueueCmd (c : QCmd) (s : QState) : QState :=
  let s1 := { s with queue := s.queue ++ [c], enqueued := s.enqueued ++ [c] }
  if s.phase = .idle then
    match s1.queue with
    | [] => s1
    | x :: rest =>
        { s1 with queue := rest, phase := .applying x s.now,
                  started := s1.started ++ [(x, s.now)] }
  else s1

/-- Completion of `triggerCapabilityListener` for the in-flight command, the
environment deciding via `fails` whether it threw: the command's own promise
is resolved or rejected, and the loop either waits `COMMAND_DELAY_MS` (queue
non-empty) or re-checks the loop condition and exits (queue empty). -/
def applyDoneQ (fails : QCmd → Bool) (s : QState) : QState :=
  match s.phase with
  | .applying c _ =>
      let s1 := { s with applied := s.applied ++ [(c, s.now)],
                         settled := s.settled ++ [(c, !(fails c))] }
      match s1.queue with
      | [] => { s1 with phase := .idle }
      | _ :: _ => { s1 with phase := .delaying (s.now + COMMAND_DELAY_MS) }
  | _ => s

/-- Completion of `_delay`: the loop condition is re-checked; a non-empty
queue has its head shifted and applied, an empty queue ends the loop. -/
def delayDoneQ (s : QState) : QState :=
  match s.phase with
  | .delaying _ =>
      match s.queue with
      | [] => { s with phase := .idle }
      | x :: rest =>
          { s with queue := rest, phase := .applying x s.now,
                   started := s.started ++ [(x, s.now)] }
  | _ => s

/-- One scheduler step of the queue system: an enqueue by some caller, the
completion of an in-flight application, the expiry of the inter-command
delay (only once the clock has reached the wake time), or the clock
advancing. -/
inductive QStep (fails : QCmd → Bool) : QState → QState → Prop
  | enqueue (c : QCmd) (s : QState) : QStep fails s (enqueueCmd c s)
  | applyDone (s : QState) (c : QCmd) (t0 : Nat) (hp : s.phase = .applying c t0) :
      QStep fails s (applyDoneQ fails s)
  | delayDone (s : QState) (wake : Nat) (h : s.phase = .delaying wake)
      (ht : wake ≤ s.now) : QStep fails s (delayDoneQ s)
  | tick (s : QState) : QStep fails s { s with now := s.now + 1 }

/-- Queue states reachable from `onInit` under some interleaving. -/
def QReachable (fails : QCmd → Bool) : QState → Prop :=
  Relation.ReflTransGen (QStep fails) qInit

/-- The body of `_processCommandQueue` run to completion with no interleaved
enqueues: repeatedly shift the head, settle its promise with its own outcome,
and wait the delay when more commands remain. -/
def processLoop (fails : QCmd → Bool) (d : Nat) (s : QState) : QState :=
  match h : s.queue with
  | [] => { s with phase := .idle }
  | c :: rest =>
      processLoop fails d
        { s with queue := rest,
                 started := s.started ++ [(c, s.now)],
                 applied := s.applied ++ [(c, s.now)],
                 settled := s.settled ++ [(c, !(fails c))],
                 now := if rest = [] then s.now else s.now + d }
termination_by s.queue.length
decreasing_by simp [h]

/-- Models `_processCommandQueue` with its re-entrancy guard: a second activation
while the loop is running returns immediately. -/
def _processCommandQueue (fails : QCmd → Bool) (d : Nat) (s : QState) : QState :=
  if s.phase = .idle then processLoop fails d s else s

/-! ### Flow condition handlers -/

/-- JS truthiness of `getCapabilityValue` under `!!`: `null` is false. -/
def truthyCapValue : Option CapValue → Bool
  | none => false
  | some (.b x) => x
  | some (.q x) => decide (x ≠ 0)

/-- Models `getCapabilityValue(cap) || 0` used as a number. -/
def numCapValue : Option CapValue → ℚ
  | none => 0
  | some (.b x) => if x then 1 else 0
  | some (.q x) => x

/-- Models `Number(args.level) || 0`: a missing level reads as 0. -/
def numLevel : Option ℚ → ℚ
  | none => 0
  | some q => q

/-- Models `_handleEndpointIsOn`: `false` for a missing/falsy endpoint id, an id the
registry does not know or marks unsupported, or a missing onoff control;
otherwise the truthiness of the stored value. -/
def _handleEndpointIsOn (s : DeviceState) (endpointId : Option Nat) : Bool :=
  match endpointId with
  | none => false
  | some ep =>
      if ep = 0 then false
      else if truthyType (lookupA s.endpointTypes ep) then
        if Cap.onoff ep ∈ s.caps then
          truthyCapValue (lookupC s.capValues (.onoff ep))
        else false
      else false

/-- Models `_handleEndpointDimCompare`: the same guards as `_handleEndpointIsOn` on
the dim control, then the three-way comparison against the level, with an
unrecognized comparison operator defaulting to `false`. -/
def _handleEndpointDimCompare (s : DeviceState) (endpointId : Option Nat)
    (comparison : String) (level : Option ℚ) : Bool :=
  match endpointId with
  | none => false
  | some ep =>
      if ep = 0 then false
      else if truthyType (lookupA s.endpointTypes ep) then
        if Cap.dim ep ∈ s.caps then
          let current := numCapValue (lookupC s.capValues (.dim ep))
          let target := numLevel level
          if comparison = "greater_than" then decide (current > target)
          else if comparison = "less_than" then decide (current < target)
          else if comparison = "equal_to" then decide (|current - target| < 1 / 100)
          else false
        else false
      else false

/-! ### Derived predicates used by the claims -/

/-- A fetch outcome that `_syncOneEndpointState` treats as a non-timeout sync
error for the given device type: missing command class, missing/malformed
report, a report of the wrong shape, or a thrown non-timeout error. -/
def demotingFetch : DeviceType → FetchOutcome → Bool
  | _, .ccMissing => true
  | _, .badReport => true
  | _, .errOther => true
  | .dimmer, .binReport _ => true
  | .switch, .dimReport _ => true
  | _, _ => false

/-- The capability set the spec prescribes for a classified endpoint: onoff
alone for a switch, onoff plus dim for a dimmer. -/
def capSetMatches (s : DeviceState) (ep : Nat) : DeviceType → Bool
  | .dimmer => decide (Cap.onoff ep ∈ s.caps) && decide (Cap.dim ep ∈ s.caps)
  | .switch => decide (Cap.onoff ep ∈ s.caps) && decide (Cap.dim ep ∉ s.caps)

/-- The registry/control consistency invariant of the spec: every registry
entry with a non-null type has exactly its type's capability set projected. -/
def registryCapsInvariant (s : DeviceState) : Bool :=
  s.endpointTypes.all fun p =>
    match p.2 with
    | some dt => capSetMatches s p.1 dt
    | none => true

/-- The same invariant restricted to a single endpoint id. -/
def endpointInvariantAt (s : DeviceState) (ep : Nat) : Bool :=
  match lookupA s.endpointTypes ep with
  | some (some dt) => capSetMatches s ep dt
  | _ => true

/-- The command in flight in the drain loop, as a (zero- or one-element)
sequence. -/
def inFlight (s : QState) : List QCmd :=
  match s.phase with
  | .applying c _ => [c]
  | _ => []

/-- Every pair of consecutively applied commands is separated by at least
`d`: the `(i+1)`-st start is at least `d` after the `i`-th completion. -/
def spacedOK (d : Nat) (s : QState) : Bool :=
  (s.applied.zip s.started.tail).all fun p => p.1.2 + d ≤ p.2.2

/-- An environment in which no command application fails. -/
def failsNone : QCmd → Bool := fun _ => false

/-! ### Component lemmas for the basic operations -/

@[simp] theorem ensureCapability_endpointTypes (s : DeviceState) (c : Cap) :
    (_ensureCapability s c).endpointTypes = s.endpointTypes := by
  by_cases h : c ∈ s.caps <;> simp [_ensureCapability, h]

@[simp] theorem ensureCapability_store (s : DeviceState) (c : Cap) :
    (_ensureCapability s c).store = s.store := by
  by_cases h : c ∈ s.caps <;> simp [_ensureCapability, h]

@[simp] theorem ensureCapability_events (s : DeviceState) (c : Cap) :
    (_ensureCapability s c).events = s.events := by
  by_cases h : c ∈ s.caps <;> simp [_ensureCapability, h]

@[simp] theorem ensureCapability_capValues (s : DeviceState) (c : Cap) :
    (_ensureCapability s c).capValues = s.capValues := by
  by_cases h : c ∈ s.caps <;> simp [_ensureCapability, h]

@[simp] theorem mem_ensureCapability_iff (s : DeviceState) (c d : Cap) :
    d ∈ (_ensureCapability s c).caps ↔ d ∈ s.caps ∨ d = c := by
  by_cases h : c ∈ s.caps
  · simp only [_ensureCapability, if_pos h]
    exact ⟨fun hd => Or.inl hd, fun hd => hd.elim id (fun e => e ▸ h)⟩
  · simp [_ensureCapability, h]

theorem mem_ensureCapability_self (s : DeviceState) (c : Cap) :
    c ∈ (_ensureCapability s c).caps := by
  simp

theorem ensureCapability_of_mem (s : DeviceState) (c : Cap) (h : c ∈ s.caps) :
    _ensureCapability s c = s := by
  simp [_ensureCapability, h]

@[simp] theorem removeIfPresent_endpointTypes (s : DeviceState) (c : Cap) :
    (_removeIfPresent s c).endpointTypes = s.endpointTypes := by
  by_cases h : c ∈ s.caps <;> simp [_removeIfPresent, h]

@[simp] theorem removeIfPresent_store (s : DeviceState) (c : Cap) :
    (_removeIfPresent s c).store = s.store := by
  by_cases h : c ∈ s.caps <;> simp [_removeIfPresent, h]

@[simp] theorem removeIfPresent_events (s : DeviceState) (c : Cap) :
    (_removeIfPresent s c).events = s.events := by
  by_cases h : c ∈ s.caps <;> simp [_removeIfPresent, h]

@[simp] theorem mem_removeIfPresent_iff (s : DeviceState) (c d : Cap) :
    d ∈ (_removeIfPresent s c).caps ↔ d ∈ s.caps ∧ d ≠ c := by
  by_cases h : c ∈ s.caps
  · simp [_removeIfPresent, h, List.mem_filter]
  · simp only [_removeIfPresent, if_neg h, iff_self_and]
    intro hd hdc
    subst hdc
    exact h hd

theorem lookupC_filter_ne (c d : Cap) (h : d ≠ c)
    (l : List (Cap × CapValue)) :
    lookupC (l.filter fun p => p.1 ≠ c) d = lookupC l d := by
  have hcd : ¬ (c = d) := fun e => h e.symm
  induction l with
  | nil => rfl
  | cons p rest ih =>
      simp only [decide_not] at ih
      by_cases hp : p.1 = c
      · simp [List.filter_cons, hp, lookupC, hcd, decide_not, ih]
      · by_cases hpd : p.1 = d <;>
          simp [List.filter_cons, hp, lookupC, hpd, h, decide_not, ih]

theorem removeIfPresent_capValues_lookup (s : DeviceState) (c d : Cap)
    (h : d ≠ c) :
    lookupC (_removeIfPresent s c).capValues d = lookupC s.capValues d := by
  by_cases hc : c ∈ s.caps
  · simp only [_removeIfPresent, if_pos hc]
    exact lookupC_filter_ne c d h s.capValues
  · simp [_removeIfPresent, hc]

@[simp] theorem setOnOff_endpointTypes (s : DeviceState) (cap : Cap) (v : Bool) (ep : Nat) :
    (_setOnOff s cap v ep).endpointTypes = s.endpointTypes := by
  by_cases h : cap ∈ s.caps
  · by_cases h2 : lookupC s.capValues cap = some (.b v) <;> simp [_setOnOff, h, h2]
  · simp [_setOnOff, h]

@[simp] theorem setOnOff_store (s : DeviceState) (cap : Cap) (v : Bool) (ep : Nat) :
    (_setOnOff s cap v ep).store = s.store := by
  by_cases h : cap ∈ s.caps
  · by_cases h2 : lookupC s.capValues cap = some (.b v) <;> simp [_setOnOff, h, h2]
  · simp [_setOnOff, h]

@[simp] theorem setOnOff_caps (s : DeviceState) (cap : Cap) (v : Bool) (ep : Nat) :
    (_setOnOff s cap v ep).caps = s.caps := by
  by_cases h : cap ∈ s.caps
  · by_cases h2 : lookupC s.capValues cap = some (.b v) <;> simp [_setOnOff, h, h2]
  · simp [_setOnOff, h]

@[simp] theorem setDim_endpointTypes (s : DeviceState) (cap : Cap) (v : ℚ) (ep : Nat) :
    (_setDim s cap v ep).endpointTypes = s.endpointTypes := by
  by_cases h0 : ep < 1
  · simp [_setDim, h0]
  · by_cases h : cap ∈ s.caps
    · by_cases h2 : lookupC s.capValues cap = some (.q (max 0 (min 1 v))) <;>
        simp [_setDim, h0, h, h2]
    · simp [_setDim, h0, h]

@[simp] theorem setDim_store (s : DeviceState) (cap : Cap) (v : ℚ) (ep : Nat) :
    (_setDim s cap v ep).store = s.store := by
  by_cases h0 : ep < 1
  · simp [_setDim, h0]
  · by_cases h : cap ∈ s.caps
    · by_cases h2 : lookupC s.capValues cap = some (.q (max 0 (min 1 v))) <;>
        simp [_setDim, h0, h, h2]
    · simp [_setDim, h0, h]

@[simp] theorem setDim_caps (s : DeviceState) (cap : Cap) (v : ℚ) (ep : Nat) :
    (_setDim s cap v ep).caps = s.caps := by
  by_cases h0 : ep < 1
  · simp [_setDim, h0]
  · by_cases h : cap ∈ s.caps
    · by_cases h2 : lookupC s.capValues cap = some (.q (max 0 (min 1 v))) <;>
        simp [_setDim, h0, h, h2]
    · simp [_setDim, h0, h]

@[simp] theorem removeEndpointCapabilities_endpointTypes (s : DeviceState) (ep : Nat) :
    (_removeEndpointCapabilities s ep).endpointTypes = s.endpointTypes := by
  unfold _removeEndpointCapabilities; simp

@[simp] theorem removeEndpointCapabilities_store (s : DeviceState) (ep : Nat) :
    (_removeEndpointCapabilities s ep).store = s.store := by
  unfold _removeEndpointCapabilities; simp

@[simp] theorem removeEndpointCapabilities_events (s : DeviceState) (ep : Nat) :
    (_removeEndpointCapabilities s ep).events = s.events := by
  unfold _removeEndpointCapabilities; simp

@[simp] theorem mem_removeEndpointCapabilities_iff (s : DeviceState) (ep : Nat) (d : Cap) :
    d ∈ (_removeEndpointCapabilities s ep).caps ↔
      d ∈ s.caps ∧ d ≠ Cap.dim ep ∧ d ≠ Cap.onoff ep := by
  unfold _removeEndpointCapabilities
  simp [and_assoc, and_comm (a := d ≠ Cap.onoff ep)]

theorem demoteEndpoint_lookup (s : DeviceState) (ep : Nat) :
    lookupA (demoteEndpoint s ep).endpointTypes ep = some none := by
  unfold demoteEndpoint; simp

theorem demoteEndpoint_lookup_ne (s : DeviceState) (ep ep' : Nat) (h : ep ≠ ep') :
    lookupA (demoteEndpoint s ep).endpointTypes ep' = lookupA s.endpointTypes ep' := by
  unfold demoteEndpoint
  simp [lookupA_setA_ne _ _ _ _ h]

theorem demoteEndpoint_store (s : DeviceState) (ep : Nat) :
    (demoteEndpoint s ep).store = (demoteEndpoint s ep).endpointTypes := by
  unfold demoteEndpoint; simp

@[simp] theorem demoteEndpoint_events (s : DeviceState) (ep : Nat) :
    (demoteEndpoint s ep).events = s.events := by
  unfold demoteEndpoint; simp

@[simp] theorem mem_demoteEndpoint_iff (s : DeviceState) (ep : Nat) (d : Cap) :
    d ∈ (demoteEndpoint s ep).caps ↔
      d ∈ s.caps ∧ d ≠ Cap.dim ep ∧ d ≠ Cap.onoff ep := by
  unfold demoteEndpoint
  exact mem_removeEndpointCapabilities_iff _ ep d

theorem removeIfPresent_of_not_mem (s : DeviceState) (c : Cap) (h : c ∉ s.caps) :
    _removeIfPresent s c = s := by
  simp [_removeIfPresent, h]

@[simp] theorem syncDimmerState_fst_endpointTypes (s : DeviceState) (ep : Nat)
    (f : FetchOutcome) :
    (_syncDimmerState s ep f).1.endpointTypes = s.endpointTypes := by
  cases f <;> simp [_syncDimmerState]

@[simp] theorem syncDimmerState_fst_store (s : DeviceState) (ep : Nat)
    (f : FetchOutcome) :
    (_syncDimmerState s ep f).1.store = s.store := by
  cases f <;> simp [_syncDimmerState]

@[simp] theorem syncSwitchState_fst_endpointTypes (s : DeviceState) (ep : Nat)
    (f : FetchOutcome) :
    (_syncSwitchState s ep f).1.endpointTypes = s.endpointTypes := by
  cases f <;> simp [_syncSwitchState]

@[simp] theorem syncSwitchState_fst_store (s : DeviceState) (ep : Nat)
    (f : FetchOutcome) :
    (_syncSwitchState s ep f).1.store = s.store := by
  cases f <;> simp [_syncSwitchState]

theorem mem_syncDimmerState_iff (s : DeviceState) (ep : Nat) (f : FetchOutcome)
    (d : Cap) :
    d ∈ (_syncDimmerState s ep f).1.caps ↔
      d ∈ s.caps ∨ d = Cap.onoff ep ∨ d = Cap.dim ep := by
  cases f <;> simp [_syncDimmerState, or_assoc]

theorem mem_syncSwitchState_iff (s : DeviceState) (ep : Nat) (f : FetchOutcome)
    (d : Cap) :
    d ∈ (_syncSwitchState s ep f).1.caps ↔
      (d ∈ s.caps ∧ d ≠ Cap.dim ep) ∨ d = Cap.onoff ep := by
  cases f <;> simp [_syncSwitchState]

theorem setOnOff_gated (s : DeviceState) (cap : Cap) (v : Bool) (ep : Nat)
    (h : lookupC s.capValues cap = some (.b v)) :
    _setOnOff s cap v ep = s := by
  by_cases hc : cap ∈ s.caps
  · simp [_setOnOff, hc, h, setC_noop _ _ _ h]
  · simp [_setOnOff, hc]

theorem setDim_eq_of_lt (s : DeviceState) (cap : Cap) (v : ℚ) (ep : Nat)
    (h : ep < 1) : _setDim s cap v ep = s := by
  simp [_setDim, h]

theorem setDim_gated (s : DeviceState) (cap : Cap) (v : ℚ) (ep : Nat)
    (h : lookupC s.capValues cap = some (.q (max 0 (min 1 v)))) :
    _setDim s cap v ep = s := by
  by_cases h0 : ep < 1
  · simp [_setDim, h0]
  · by_cases hc : cap ∈ s.caps
    · simp [_setDim, h0, hc, h, setC_noop _ _ _ h]
    · simp [_setDim, h0, hc]

theorem setOnOff_lookup_self (s : DeviceState) (cap : Cap) (v : Bool) (ep : Nat)
    (hc : cap ∈ s.caps) :
    lookupC (_setOnOff s cap v ep).capValues cap = some (.b v) := by
  by_cases h2 : lookupC s.capValues cap = some (.b v) <;>
    simp [_setOnOff, hc, h2]

theorem setOnOff_lookup_ne (s : DeviceState) (cap : Cap) (v : Bool) (ep : Nat)
    (d : Cap) (hd : d ≠ cap) :
    lookupC (_setOnOff s cap v ep).capValues d = lookupC s.capValues d := by
  by_cases hc : cap ∈ s.caps
  · by_cases h2 : lookupC s.capValues cap = some (.b v) <;>
      simp [_setOnOff, hc, h2, lookupC_setC_ne _ _ _ _ (fun e => hd e.symm)]
  · simp [_setOnOff, hc]

theorem setDim_lookup_self (s : DeviceState) (cap : Cap) (v : ℚ) (ep : Nat)
    (h0 : ¬ ep < 1) (hc : cap ∈ s.caps) :
    lookupC (_setDim s cap v ep).capValues cap = some (.q (max 0 (min 1 v))) := by
  by_cases h2 : lookupC s.capValues cap = some (.q (max 0 (min 1 v))) <;>
    simp [_setDim, h0, hc, h2]

theorem setDim_lookup_ne (s : DeviceState) (cap : Cap) (v : ℚ) (ep : Nat)
    (d : Cap) (hd : d ≠ cap) :
    lookupC (_setDim s cap v ep).capValues d = lookupC s.capValues d := by
  by_cases h0 : ep < 1
  · simp [_setDim, h0]
  · by_cases hc : cap ∈ s.caps
    · by_cases h2 : lookupC s.capValues cap = some (.q (max 0 (min 1 v))) <;>
        simp [_setDim, h0, hc, h2, lookupC_setC_ne _ _ _ _ (fun e => hd e.symm)]
    · simp [_setDim, h0, hc]

theorem removeEndpointCapabilities_of_absent (s : DeviceState) (ep : Nat)
    (h1 : Cap.dim ep ∉ s.caps) (h2 : Cap.onoff ep ∉ s.caps) :
    _removeEndpointCapabilities s ep = s := by
  unfold _removeEndpointCapabilities
  rw [removeIfPresent_of_not_mem _ _ h1, removeIfPresent_of_not_mem _ _ h2]

/-- Lemma: `syncOne` is idempotent: running it a second time with the same
environment outcome changes nothing at all (in particular it fires no
further events). -/
theorem syncOne_idem (s : DeviceState) (ep : Nat) (p : Bool) (f : FetchOutcome) :
    _syncOneEndpointState (_syncOneEndpointState s ep p f) ep p f =
      _syncOneEndpointState s ep p f := by
  have hnull : ∀ t : DeviceState, lookupA t.endpointTypes ep = some none →
      _syncOneEndpointState t ep true f = t := by
    intro t ht; simp [_syncOneEndpointState, ht]
  cases p
  case false =>
    simpa [_syncOneEndpointState] using
      removeEndpointCapabilities_of_absent (_removeEndpointCapabilities s ep) ep
        (by simp) (by simp)
  case true =>
    rcases hlt : lookupA s.endpointTypes ep with _ | (_ | dt)
    · have e1 : _syncOneEndpointState s ep true f = s := by
        simp [_syncOneEndpointState, hlt]
      rw [e1, e1]
    · have e1 : _syncOneEndpointState s ep true f = s := by
        simp [_syncOneEndpointState, hlt]
      rw [e1, e1]
    · cases dt
      case dimmer =>
        cases f
        case dimReport v =>
          by_cases hep : ep < 1
          · simp [_syncOneEndpointState, hlt, _syncDimmerState,
              ensureCapability_of_mem, setOnOff_gated, setOnOff_lookup_self,
              setDim_eq_of_lt _ _ _ _ hep]
          · simp [_syncOneEndpointState, hlt, _syncDimmerState,
              ensureCapability_of_mem, setOnOff_gated, setOnOff_lookup_self,
              setOnOff_lookup_ne, setDim_gated, setDim_lookup_self,
              setDim_lookup_ne, hep]
        all_goals
          simp [_syncOneEndpointState, hlt, _syncDimmerState,
            ensureCapability_of_mem, demoteEndpoint_lookup, hnull]
      case switch =>
        cases f
        case binReport v =>
          simp [_syncOneEndpointState, hlt, _syncSwitchState,
            ensureCapability_of_mem, removeIfPresent_of_not_mem,
            setOnOff_gated, setOnOff_lookup_self]
        all_goals
          simp [_syncOneEndpointState, hlt, _syncSwitchState,
            ensureCapability_of_mem, removeIfPresent_of_not_mem,
            demoteEndpoint_lookup, hnull]

/-! ### Claim C3 -/

/-- Claim C3: for every endpoint, a timeout-class error during `syncOne`
never alters the Registry's type for that endpoint — the whole registry and
its persisted copy are unchanged, the endpoint's own controls are not removed
(the control set of its classification is present afterwards), and no
demotion occurs. -/
theorem sync_timeout_keeps_classification (s : DeviceState) (ep : Nat)
    (dt : DeviceType) (h : lookupA s.endpointTypes ep = some (some dt)) :
    (_syncOneEndpointState s ep true .errTimeout).endpointTypes = s.endpointTypes ∧
    (_syncOneEndpointState s ep true .errTimeout).store = s.store ∧
    Cap.onoff ep ∈ (_syncOneEndpointState s ep true .errTimeout).caps ∧
    (dt = .dimmer → Cap.dim ep ∈ (_syncOneEndpointState s ep true .errTimeout).caps) := by
  cases dt <;> simp [_syncOneEndpointState, h, _syncDimmerState, _syncSwitchState]

/-- Witness for C3: a concrete dimmer endpoint, synced under a timeout, keeps
its classification and both of its controls. -/
theorem sync_timeout_keeps_classification_witness :
    (_syncOneEndpointState ⟨[(3, some .dimmer)], [], [], [], []⟩ 3 true
        .errTimeout).endpointTypes = [(3, some DeviceType.dimmer)] ∧
    Cap.dim 3 ∈
      (_syncOneEndpointState ⟨[(3, some .dimmer)], [], [], [], []⟩ 3 true
        .errTimeout).caps := by
  have h := sync_timeout_keeps_classification ⟨[(3, some .dimmer)], [], [], [], []⟩
    3 .dimmer (by decide)
  exact ⟨h.1, h.2.2.2 rfl⟩

/-! ### Claim C4 -/

/-- Claim C4: any non-timeout sync error demotes the endpoint to
Unclassified (its registry entry becomes null), removes both its controls,
and persists the registry; and once an endpoint is demoted with its controls
absent, any further `syncOne` keeps it demoted with its controls absent (only
a discovery pass can reclassify the id). -/
theorem sync_nontimeout_error_demotes (s : DeviceState) (ep : Nat)
    (dt : DeviceType) (fetch : FetchOutcome)
    (h : lookupA s.endpointTypes ep = some (some dt))
    (hf : demotingFetch dt fetch = true) :
    (lookupA (_syncOneEndpointState s ep true fetch).endpointTypes ep = some none ∧
      Cap.onoff ep ∉ (_syncOneEndpointState s ep true fetch).caps ∧
      Cap.dim ep ∉ (_syncOneEndpointState s ep true fetch).caps ∧
      (_syncOneEndpointState s ep true fetch).store =
        (_syncOneEndpointState s ep true fetch).endpointTypes) ∧
    (∀ (s2 : DeviceState) (ep2 : Nat) (p : Bool) (f2 : FetchOutcome),
      lookupA s2.endpointTypes ep2 = some none →
      Cap.onoff ep2 ∉ s2.caps →
      Cap.dim ep2 ∉ s2.caps →
      lookupA (_syncOneEndpointState s2 ep2 p f2).endpointTypes ep2 = some none ∧
        Cap.onoff ep2 ∉ (_syncOneEndpointState s2 ep2 p f2).caps ∧
        Cap.dim ep2 ∉ (_syncOneEndpointState s2 ep2 p f2).caps) := by
  constructor
  · cases dt <;> cases fetch <;>
      simp [demotingFetch] at hf <;>
      simp [_syncOneEndpointState, h, _syncDimmerState, _syncSwitchState,
        demoteEndpoint_lookup, demoteEndpoint_store]
  · intro s2 ep2 p f2 ht ho hd
    cases p
    · refine ⟨?_, ?_, ?_⟩ <;>
        simp [_syncOneEndpointState, ht, ho, hd]
    · simp [_syncOneEndpointState, ht, ho, hd]

/-- Witness for C4: a concrete switch endpoint whose binary `GET` returns a
malformed report is demoted, loses both controls, and stays demoted across a
further sync attempt. -/
theorem sync_nontimeout_error_demotes_witness :
    (lookupA (_syncOneEndpointState
        ⟨[(2, some .switch)], [Cap.onoff 2], [], [(2, some .switch)], []⟩
        2 true .badReport).endpointTypes 2 = some none ∧
      Cap.onoff 2 ∉ (_syncOneEndpointState
        ⟨[(2, some .switch)], [Cap.onoff 2], [], [(2, some .switch)], []⟩
        2 true .badReport).caps) := by
  have h := sync_nontimeout_error_demotes
    ⟨[(2, some .switch)], [Cap.onoff 2], [], [(2, some .switch)], []⟩
    2 .switch .badReport (by decide) (by decide)
  exact ⟨h.1.1, h.1.2.1⟩

/-! ### Claim C2 -/

/-- Claim C2 counterexample: applying the same derived value twice via
`syncOne` can fire two transition events in total, refuting "at most one
transition event total": a switch endpoint stored as off receives the value
on twice; the first application fires both `endpoint_turned_on` and
`endpoint_state_changed` (two events), the second fires none. -/
theorem syncOne_two_events_total_counterexample :
    (_syncOneEndpointState
        (_syncOneEndpointState
          ⟨[(2, some .switch)], [Cap.onoff 2], [(Cap.onoff 2, .b false)],
            [(2, some .switch)], []⟩ 2 true (.binReport (.num 1)))
        2 true (.binReport (.num 1))).events =
      [Ev.turnedOn 2, Ev.stateChanged 2 true] := by
  rfl

/-- Claim C2 (amended): value application is change-gated per control —
writing a value equal to the stored one leaves the state unchanged entirely
(no overwrite visible, no transition event), and `syncOne` applied twice with
the same derived value leaves the event log of the first application
unchanged: the second application fires no transition events (a single
application may fire up to three: turned-on/turned-off plus state-changed,
and dim-changed). -/
theorem value_application_change_gated :
    (∀ (s : DeviceState) (cap : Cap) (v : Bool) (ep : Nat),
        lookupC s.capValues cap = some (.b v) → _setOnOff s cap v ep = s) ∧
    (∀ (s : DeviceState) (cap : Cap) (v : ℚ) (ep : Nat),
        lookupC s.capValues cap = some (.q (max 0 (min 1 v))) →
          _setDim s cap v ep = s) ∧
    (∀ (s : DeviceState) (ep : Nat) (p : Bool) (f : FetchOutcome),
        (_syncOneEndpointState (_syncOneEndpointState s ep p f) ep p f).events =
          (_syncOneEndpointState s ep p f).events) :=
  ⟨setOnOff_gated, setDim_gated, fun s ep p f => by rw [syncOne_idem]⟩

/-- Witness for the amended C2: writing the already-stored value to a
concrete onoff control changes nothing. -/
theorem value_application_change_gated_witness :
    _setOnOff ⟨[], [Cap.onoff 1], [(Cap.onoff 1, .b true)], [], []⟩
        (Cap.onoff 1) true 1 =
      ⟨[], [Cap.onoff 1], [(Cap.onoff 1, .b true)], [], []⟩ :=
  value_application_change_gated.1 _ (Cap.onoff 1) true 1 (by decide)

/-! ### Claim C8 -/

/-- Claim C8: for a Dimmer endpoint whose multilevel `GET` returns a valid
report with `Current Value` v in [0,99], `syncOne` derives
`onoffValue = v > 0` and `dimValue = v / 99`, keeping the registry unchanged;
and a missing or malformed report counts as a synchronization failure. -/
theorem dimmer_sync_derives_values (s : DeviceState) (ep : Nat) (v : ℚ)
    (h : lookupA s.endpointTypes ep = some (some .dimmer))
    (hep : 1 ≤ ep) (h0 : 0 ≤ v) (h99 : v ≤ 99) :
    lookupC (_syncOneEndpointState s ep true (.dimReport v)).capValues
        (Cap.onoff ep) = some (.b (decide (0 < v))) ∧
    lookupC (_syncOneEndpointState s ep true (.dimReport v)).capValues
        (Cap.dim ep) = some (.q (v / 99)) ∧
    (_syncOneEndpointState s ep true (.dimReport v)).endpointTypes =
      s.endpointTypes ∧
    (_syncDimmerState s ep .badReport).2 = .failure ∧
    (_syncDimmerState s ep .ccMissing).2 = .failure := by
  have hep' : ¬ ep < 1 := by omega
  have h1 : v / 99 ≤ 1 := by
    rw [div_le_one (by norm_num : (0:ℚ) < 99)]
    exact h99
  have h2 : (0:ℚ) ≤ v / 99 := by positivity
  have hnorm : max 0 (min 1 (v / Z_WAVE_MAX_DIM_VALUE)) = v / 99 := by
    rw [Z_WAVE_MAX_DIM_VALUE, min_eq_right h1, max_eq_right h2]
  refine ⟨?_, ?_, ?_, rfl, rfl⟩
  · simp [_syncOneEndpointState, h, _syncDimmerState, setDim_lookup_ne,
      setOnOff_lookup_self]
  · simp [_syncOneEndpointState, h, _syncDimmerState, setDim_lookup_self,
      hep', hnorm]
  · simp [_syncOneEndpointState, h, _syncDimmerState]

/-- Witness for C8: endpoint 3, current value 50 — after `syncOne`,
`onoffValue` is true and `dimValue` is 50/99 (approximately 0.505). -/
theorem dimmer_sync_derives_values_witness :
    lookupC (_syncOneEndpointState ⟨[(3, some .dimmer)], [], [], [], []⟩ 3 true
        (.dimReport 50)).capValues (Cap.onoff 3) = some (.b true) ∧
    lookupC (_syncOneEndpointState ⟨[(3, some .dimmer)], [], [], [], []⟩ 3 true
        (.dimReport 50)).capValues (Cap.dim 3) = some (.q (50 / 99)) := by
  have h := dimmer_sync_derives_values ⟨[(3, some .dimmer)], [], [], [], []⟩
    3 50 (by decide) (by decide) (by norm_num) (by norm_num)
  refine ⟨?_, h.2.1⟩
  have h1 := h.1
  norm_num at h1
  exact h1

/-! ### Claim C7 -/

/-- Claim C7: the health monitor triggers rediscovery if and only if the
desync signature holds — endpoint capabilities exist while the registry has
no endpoint records at all (the code's reading of "believes zero endpoints
are classified": `Object.keys(this._endpointTypes).length === 0`, consistent
with the claim's clause that any state where the registry has entries is left
alone) — and in every other state the health check changes nothing. -/
theorem health_check_triggers_iff (env : RegEnv) (manifest : List Cap)
    (topo : List (Nat × EndpointDesc)) (s : DeviceState) :
    ((_checkDeviceHealth env manifest topo s).2 = true ↔
      (s.endpointTypes.length = 0 ∧ 0 < endpointCapCount s)) ∧
    ((_checkDeviceHealth env manifest topo s).2 = false →
      (_checkDeviceHealth env manifest topo s).1 = s) := by
  by_cases h : s.endpointTypes = [] ∧ 0 < endpointCapCount s <;>
    simp [_checkDeviceHealth, h]

/-- Witness for C7: a registry with one (even null-typed) entry suppresses
the health check entirely, while an empty registry with a leftover endpoint
capability triggers rediscovery. -/
theorem health_check_triggers_iff_witness :
    (_checkDeviceHealth ⟨fun _ => .ok, fun _ => .ok⟩ [] []
        ⟨[(1, some .switch)], [Cap.onoff 1], [], [], []⟩).1 =
      ⟨[(1, some .switch)], [Cap.onoff 1], [], [], []⟩ ∧
    (_checkDeviceHealth ⟨fun _ => .ok, fun _ => .ok⟩ [] []
        ⟨[], [Cap.onoff 1], [], [], []⟩).2 = true :=
  ⟨(health_check_triggers_iff ⟨fun _ => .ok, fun _ => .ok⟩ [] []
      ⟨[(1, some .switch)], [Cap.onoff 1], [], [], []⟩).2 (by decide),
   (health_check_triggers_iff ⟨fun _ => .ok, fun _ => .ok⟩ [] []
      ⟨[], [Cap.onoff 1], [], [], []⟩).1.mpr (by decide)⟩

/-! ### Claim C10 -/

/-- Claim C10: the flow condition evaluators are total functions (the model
cannot throw) and return false when the endpoint argument is missing or
falsy, when the endpoint is unknown or unsupported in the registry, when the
required capability is absent, and — for the dim comparison — when the
comparison operator is unrecognized. -/
theorem flow_condition_guards (s : DeviceState) (comparison : String)
    (level : Option ℚ) :
    (_handleEndpointIsOn s none = false) ∧
    (_handleEndpointIsOn s (some 0) = false) ∧
    (∀ ep, truthyType (lookupA s.endpointTypes ep) = false →
      _handleEndpointIsOn s (some ep) = false) ∧
    (∀ ep, Cap.onoff ep ∉ s.caps → _handleEndpointIsOn s (some ep) = false) ∧
    (_handleEndpointDimCompare s none comparison level = false) ∧
    (_handleEndpointDimCompare s (some 0) comparison level = false) ∧
    (∀ ep, truthyType (lookupA s.endpointTypes ep) = false →
      _handleEndpointDimCompare s (some ep) comparison level = false) ∧
    (∀ ep, Cap.dim ep ∉ s.caps →
      _handleEndpointDimCompare s (some ep) comparison level = false) ∧
    (∀ ep, comparison ≠ "greater_than" → comparison ≠ "less_than" →
      comparison ≠ "equal_to" →
      _handleEndpointDimCompare s (some ep) comparison level = false) := by
  refine ⟨rfl, by simp [_handleEndpointIsOn], ?_, ?_, rfl,
    by simp [_handleEndpointDimCompare], ?_, ?_, ?_⟩
  · intro ep h
    by_cases h0 : ep = 0 <;> simp [_handleEndpointIsOn, h0, h]
  · intro ep h
    by_cases h0 : ep = 0 <;> simp [_handleEndpointIsOn, h0, h]
  · intro ep h
    by_cases h0 : ep = 0 <;> simp [_handleEndpointDimCompare, h0, h]
  · intro ep h
    by_cases h0 : ep = 0 <;> simp [_handleEndpointDimCompare, h0, h]
  · intro ep h1 h2 h3
    by_cases h0 : ep = 0 <;> simp [_handleEndpointDimCompare, h0, h1, h2, h3]

/-- Witness for C10: a null-typed endpoint reads as off, and an unrecognized
comparison operator reads as false. -/
theorem flow_condition_guards_witness :
    _handleEndpointIsOn ⟨[(1, none)], [Cap.onoff 1], [], [], []⟩ (some 1) = false ∧
    _handleEndpointDimCompare ⟨[(1, some .dimmer)], [Cap.dim 1], [], [], []⟩
      (some 1) "between" (some (1 / 2)) = false :=
  ⟨(flow_condition_guards ⟨[(1, none)], [Cap.onoff 1], [], [], []⟩ "x" none).2.2.1
      1 (by decide),
   (flow_condition_guards ⟨[(1, some .dimmer)], [Cap.dim 1], [], [], []⟩
      "between" (some (1 / 2))).2.2.2.2.2.2.2.2 1 (by decide) (by decide) (by decide)⟩

/-! ### Claim C1 -/

/-- Claim C1 counterexample: both root listeners clear the single shared
`_syncTimeout` slot, so a pending Dimmer (multilevel) timer IS cancelled by a
root report of the Switch (binary) class: with a dimmer timer pending (due at
t=100), a binary root report at t=50 leaves no pending dimmer timer — only a
switch timer due at t=150 — and a run over exactly that report sequence
performs no dimmer bulk resync at all. -/
theorem debouncer_cross_class_cancel_counterexample :
    pendingFor ⟨some (.dimmer, 100)⟩ .dimmer = some 100 ∧
    pendingFor (onRootReport 100 ⟨some (.dimmer, 100)⟩ .switch 50) .dimmer = none ∧
    pendingFor (onRootReport 100 ⟨some (.dimmer, 100)⟩ .switch 50) .switch = some 150 ∧
    debounceRun 100 ⟨none⟩ [(.dimmer, 0), (.switch, 50)] = [(.switch, 150)] := by
  decide

/-- Claim C1 (amended): the two classes share the single `_syncTimeout` slot:
after any root report there is exactly one pending timer — scoped to the
reporting class, with the full quiet window — and no pending timer for any
other class; hence at most one pending timer per class, but a root report of
either class cancels a pending timer of the other class. -/
theorem debouncer_single_shared_timer (w : Nat) (d : Debouncer) (c : DeviceType)
    (now : Nat) :
    pendingFor (onRootReport w d c now) c = some (now + w) ∧
    (∀ c2, c2 ≠ c → pendingFor (onRootReport w d c now) c2 = none) := by
  constructor
  · simp [onRootReport, pendingFor]
  · intro c2 hc
    simp [onRootReport, pendingFor, Ne.symm hc]

/-- Witness for the amended C1: a multilevel root report at t=7 with a 100ms
window leaves a dimmer timer due at t=107 and no switch timer. -/
theorem debouncer_single_shared_timer_witness :
    pendingFor (onRootReport 100 ⟨none⟩ .dimmer 7) .dimmer = some 107 ∧
    pendingFor (onRootReport 100 ⟨none⟩ .dimmer 7) .switch = none :=
  ⟨(debouncer_single_shared_timer 100 ⟨none⟩ .dimmer 7).1,
   (debouncer_single_shared_timer 100 ⟨none⟩ .dimmer 7).2 .switch (by decide)⟩

/-! ### Claim C9 -/

theorem lookupA_mem {α : Type} (l : List (Nat × α)) (k : Nat) (v : α)
    (h : lookupA l k = some v) : (k, v) ∈ l := by
  induction l with
  | nil => simp [lookupA] at h
  | cons p rest ih =>
      by_cases hp : p.1 = k
      · simp only [lookupA, if_pos hp, Option.some.injEq] at h
        exact List.mem_cons.mpr (Or.inl (by rw [← hp, ← h]))
      · simp only [lookupA, if_neg hp] at h
        exact List.mem_cons.mpr (Or.inr (ih h))

theorem regInv_pointwise (s : DeviceState) (h : registryCapsInvariant s = true)
    (e : Nat) : endpointInvariantAt s e = true := by
  unfold endpointInvariantAt
  rcases hx : lookupA s.endpointTypes e with _ | (_ | dt)
  · rfl
  · rfl
  · have hm := lookupA_mem _ _ _ hx
    have hall := (List.all_eq_true.mp h) _ hm
    simpa using hall

theorem syncOne_lookup_ne (s : DeviceState) (ep : Nat) (p : Bool)
    (f : FetchOutcome) (e : Nat) (he : e ≠ ep) :
    lookupA (_syncOneEndpointState s ep p f).endpointTypes e =
      lookupA s.endpointTypes e := by
  cases p
  · simp [_syncOneEndpointState]
  · rcases hlt : lookupA s.endpointTypes ep with _ | (_ | dt)
    · simp [_syncOneEndpointState, hlt]
    · simp [_syncOneEndpointState, hlt]
    · cases dt <;> cases f <;>
        simp [_syncOneEndpointState, hlt, _syncDimmerState, _syncSwitchState,
          demoteEndpoint_lookup_ne _ _ _ (fun x => he x.symm)]

theorem syncOne_mem_caps_ne (s : DeviceState) (ep : Nat) (p : Bool)
    (f : FetchOutcome) (d : Cap) (h1 : d ≠ Cap.onoff ep) (h2 : d ≠ Cap.dim ep) :
    (d ∈ (_syncOneEndpointState s ep p f).caps ↔ d ∈ s.caps) := by
  cases p
  · simp [_syncOneEndpointState, h1, h2]
  · rcases hlt : lookupA s.endpointTypes ep with _ | (_ | dt)
    · simp [_syncOneEndpointState, hlt]
    · simp [_syncOneEndpointState, hlt]
    · cases dt <;> cases f <;>
        simp [_syncOneEndpointState, hlt, _syncDimmerState, _syncSwitchState,
          h1, h2]

/-- Claim C9 counterexample: the registry/control invariant is not preserved
by discovery: in a state satisfying the invariant (no classified ids) where
endpoint 1 still carries both manifest controls, a discovery pass classifying
endpoint 1 as Switch commits the type but leaves the dim control in place
(`registerCapability` does not remove controls; the stray dim control of a
switch is removed only by its first sync), breaking "onoff alone for
Switch". -/
theorem discovery_breaks_caps_invariant_counterexample :
    registryCapsInvariant ⟨[], [Cap.onoff 1, Cap.dim 1], [], [], []⟩ = true ∧
    lookupA (_discoverOneEndpoint ⟨fun _ => .ok, fun _ => .ok⟩
        ⟨[], [Cap.onoff 1, Cap.dim 1], [], [], []⟩ 1
        (some ⟨"GENERIC_TYPE_SWITCH_BINARY", false, true⟩)).endpointTypes 1 =
      some (some .switch) ∧
    registryCapsInvariant (_discoverOneEndpoint ⟨fun _ => .ok, fun _ => .ok⟩
        ⟨[], [Cap.onoff 1, Cap.dim 1], [], [], []⟩ 1
        (some ⟨"GENERIC_TYPE_SWITCH_BINARY", false, true⟩)) = false := by
  decide

/-- Claim C9 (amended): the registry/control consistency invariant — every id
with a non-null type has exactly its type's capability set projected (onoff
alone for Switch, onoff plus dim for Dimmer) — is established at an endpoint
by its `syncOne` (whatever the fetch outcome: the type-matched controls are
ensured, a switch's stray dim control is removed, and demotion nulls the type
while removing both controls) and preserved at every other endpoint, provided
the synced endpoint is present in the topology.  Discovery alone does not
remove a newly classified switch's stale dim control, so after discovery the
invariant holds only from each endpoint's first sync. -/
theorem sync_establishes_caps_invariant (s : DeviceState) (ep : Nat)
    (f : FetchOutcome) (hInv : registryCapsInvariant s = true) :
    ∀ e, endpointInvariantAt (_syncOneEndpointState s ep true f) e = true := by
  intro e
  by_cases he : e = ep
  · subst he
    rcases hlt : lookupA s.endpointTypes e with _ | (_ | dt)
    · simpa [_syncOneEndpointState, hlt] using regInv_pointwise s hInv e
    · simpa [_syncOneEndpointState, hlt] using regInv_pointwise s hInv e
    · cases dt <;> cases f <;>
        simp [_syncOneEndpointState, hlt, _syncDimmerState, _syncSwitchState,
          endpointInvariantAt, capSetMatches, demoteEndpoint_lookup]
  · have hl := syncOne_lookup_ne s ep true f e he
    have hmo := syncOne_mem_caps_ne s ep true f (Cap.onoff e)
      (by simp [he]) (by simp)
    have hmd := syncOne_mem_caps_ne s ep true f (Cap.dim e)
      (by simp) (by simp [he])
    have hi := regInv_pointwise s hInv e
    unfold endpointInvariantAt at hi ⊢
    rw [hl]
    rcases hx : lookupA s.endpointTypes e with _ | (_ | dt)
    · rfl
    · rfl
    · rw [hx] at hi
      cases dt <;> simp [capSetMatches, hmo, hmd] at hi ⊢ <;> exact hi

/-- Witness for the amended C9: a concrete switch endpoint still satisfies
the invariant after a sync that timed out. -/
theorem sync_establishes_caps_invariant_witness :
    endpointInvariantAt
      (_syncOneEndpointState ⟨[(1, some .switch)], [Cap.onoff 1], [], [], []⟩
        1 true .errTimeout) 1 = true :=
  sync_establishes_caps_invariant ⟨[(1, some .switch)], [Cap.onoff 1], [], [], []⟩
    1 .errTimeout (by decide) 1

/-! ### Claim C6 -/

/-- Claim C6: for every queued command whose application fails, the failure
is surfaced only by rejecting that command's own promise: the drain loop
settles every queued command, in order, each with exactly its own outcome
(`!(fails c)`), applies every queued command regardless of earlier failures,
and runs to completion. -/
theorem queue_failure_rejects_only_own_future (fails : QCmd → Bool) (d : Nat) :
    ∀ s : QState,
      (processLoop fails d s).settled =
          s.settled ++ s.queue.map (fun c => (c, !(fails c))) ∧
      (processLoop fails d s).applied.map Prod.fst =
          s.applied.map Prod.fst ++ s.queue ∧
      (processLoop fails d s).phase = .idle := by
  have main : ∀ (n : Nat) (s : QState), s.queue.length ≤ n →
      (processLoop fails d s).settled =
          s.settled ++ s.queue.map (fun c => (c, !(fails c))) ∧
      (processLoop fails d s).applied.map Prod.fst =
          s.applied.map Prod.fst ++ s.queue ∧
      (processLoop fails d s).phase = .idle := by
    intro n
    induction n with
    | zero =>
        intro s hs
        obtain ⟨q, ph, st, ap, se, no, en⟩ := s
        have hq : q = [] := List.eq_nil_of_length_eq_zero (Nat.le_zero.mp hs)
        subst hq
        rw [processLoop]
        simp
    | succ n ih =>
        intro s hs
        obtain ⟨q, ph, st, ap, se, no, en⟩ := s
        cases q with
        | nil =>
            rw [processLoop]
            simp
        | cons c rest =>
            rw [processLoop]
            have hlen : rest.length ≤ n := by simpa using hs
            obtain ⟨i1, i2, i3⟩ := ih
              ⟨rest, ph, st ++ [(c, no)], ap ++ [(c, no)],
                se ++ [(c, !(fails c))],
                if rest = [] then no else no + d, en⟩ hlen
            refine ⟨?_, ?_, ?_⟩
            · rw [i1]; simp
            · rw [i2]; simp
            · exact i3
  intro s
  exact main s.queue.length s (le_refl _)

/-! ### Claim C5 -/

theorem qstep_fifo (fails : QCmd → Bool) {a b : QState}
    (hstep : QStep fails a b)
    (ih : a.enqueued = a.applied.map Prod.fst ++ inFlight a ++ a.queue) :
    b.enqueued = b.applied.map Prod.fst ++ inFlight b ++ b.queue := by
  cases hstep with
  | enqueue c0 _ =>
      rcases hph : a.phase with _ | ⟨cx, tx⟩ | w
      · rcases hq : a.queue with _ | ⟨x, rest⟩ <;>
          simp [enqueueCmd, hph, hq, inFlight] at ih ⊢ <;>
          simp [ih]
      · simp [enqueueCmd, hph, inFlight] at ih ⊢
        simp [ih]
      · simp [enqueueCmd, hph, inFlight] at ih ⊢
        simp [ih]
  | applyDone _ c0 t0 hp =>
      rcases hq : a.queue with _ | ⟨x, rest⟩ <;>
        simp [applyDoneQ, hp, hq, inFlight] at ih ⊢ <;>
        simp [ih]
  | delayDone _ w hp ht =>
      rcases hq : a.queue with _ | ⟨x, rest⟩ <;>
        simp [delayDoneQ, hp, hq, inFlight] at ih ⊢ <;>
        simp [ih]
  | tick =>
      simp [inFlight] at ih ⊢
      exact ih

theorem qreach_fifo (fails : QCmd → Bool) (s : QState) (h : QReachable fails s) :
    s.enqueued = s.applied.map Prod.fst ++ inFlight s ++ s.queue := by
  induction h with
  | refl => rfl
  | tail _ hstep ih => exact qstep_fifo fails hstep ih

theorem qstep_delay_wake (fails : QCmd → Bool) {a b : QState}
    (hstep : QStep fails a b)
    (ih : ∀ wake, a.phase = .delaying wake →
      ∃ p, a.applied.getLast? = some p ∧ wake = p.2 + COMMAND_DELAY_MS) :
    ∀ wake, b.phase = .delaying wake →
      ∃ p, b.applied.getLast? = some p ∧ wake = p.2 + COMMAND_DELAY_MS := by
  cases hstep with
  | enqueue c0 _ =>
      intro wake hw
      rcases hph : a.phase with _ | ⟨cx, tx⟩ | w
      · rcases hq : a.queue with _ | ⟨x, rest⟩ <;>
          simp [enqueueCmd, hph, hq] at hw
      · simp [enqueueCmd, hph] at hw
      · have he : enqueueCmd c0 a =
            { a with queue := a.queue ++ [c0], enqueued := a.enqueued ++ [c0] } := by
          simp [enqueueCmd, hph]
        rw [he] at hw ⊢
        exact ih wake hw
  | applyDone _ c0 t0 hp =>
      intro wake hw
      rcases hq : a.queue with _ | ⟨x, rest⟩
      · simp [applyDoneQ, hp, hq] at hw
      · have he : applyDoneQ fails a =
            { a with queue := a.queue,
                     applied := a.applied ++ [(c0, a.now)],
                     settled := a.settled ++ [(c0, !(fails c0))],
                     phase := .delaying (a.now + COMMAND_DELAY_MS) } := by
          simp [applyDoneQ, hp, hq]
        rw [he] at hw ⊢
        have hw2 : a.now + COMMAND_DELAY_MS = wake := by
          injection hw
        exact ⟨(c0, a.now), by simp, by omega⟩
  | delayDone _ w hp ht =>
      intro wake hw
      rcases hq : a.queue with _ | ⟨x, rest⟩ <;>
        simp [delayDoneQ, hp, hq] at hw
  | tick =>
      intro wake hw
      exact ih wake hw

theorem qreach_delay_wake (fails : QCmd → Bool) (s : QState)
    (h : QReachable fails s) :
    ∀ wake, s.phase = .delaying wake →
      ∃ p, s.applied.getLast? = some p ∧ wake = p.2 + COMMAND_DELAY_MS := by
  induction h with
  | refl =>
      intro wake hw
      simp [qInit] at hw
  | tail _ hstep ih => exact qstep_delay_wake fails hstep ih

/-- Claim C5 (amended): reachable queue states keep global FIFO order — the
enqueue history always equals the applied history (in order) followed by the
in-flight command and the pending queue, so commands are applied strictly one
at a time in enqueue order — the re-entrancy guard means an enqueue while the
drain loop is running only appends to the queue, and whenever the loop comes
out of its inter-command delay to start the next command, that command's
start time is at least `COMMAND_DELAY_MS` after the previous command's
completion.  The spacing holds only within one busy period: when the queue
empties the loop exits without delay, and a command enqueued right after
starts immediately. -/
theorem queue_fifo_and_spacing (fails : QCmd → Bool) (s : QState)
    (h : QReachable fails s) :
    (s.enqueued = s.applied.map Prod.fst ++ inFlight s ++ s.queue) ∧
    (∀ c, s.phase ≠ .idle → (enqueueCmd c s).phase = s.phase ∧
      (enqueueCmd c s).queue = s.queue ++ [c]) ∧
    (∀ wake x rest, s.phase = .delaying wake → wake ≤ s.now →
      s.queue = x :: rest →
      (delayDoneQ s).started = s.started ++ [(x, s.now)] ∧
      (delayDoneQ s).phase = .applying x s.now ∧
      ∃ p, s.applied.getLast? = some p ∧ p.2 + COMMAND_DELAY_MS ≤ s.now) := by
  refine ⟨qreach_fifo fails s h, ?_, ?_⟩
  · intro c hc
    exact ⟨by simp [enqueueCmd, hc], by simp [enqueueCmd, hc]⟩
  · intro wake x rest hph hle hq
    refine ⟨by simp [delayDoneQ, hph, hq], by simp [delayDoneQ, hph, hq], ?_⟩
    obtain ⟨p, h1, h2⟩ := qreach_delay_wake fails s h wake hph
    exact ⟨p, h1, by omega⟩

/-- Witness for the amended C5: after a single enqueue from the initial
state, the FIFO bookkeeping holds: the enqueue history is exactly the
in-flight command. -/
theorem queue_fifo_and_spacing_witness :
    (enqueueCmd ⟨Cap.onoff 1, .b true⟩ qInit).enqueued =
      (enqueueCmd ⟨Cap.onoff 1, .b true⟩ qInit).applied.map Prod.fst ++
        inFlight (enqueueCmd ⟨Cap.onoff 1, .b true⟩ qInit) ++
        (enqueueCmd ⟨Cap.onoff 1, .b true⟩ qInit).queue :=
  (queue_fifo_and_spacing failsNone _
    (Relation.ReflTransGen.tail Relation.ReflTransGen.refl
      (QStep.enqueue _ _))).1

/-- Claim C5 counterexample: the configured minimum delay does NOT elapse
between every pair of consecutive commands: enqueue a command at t=0, let it
complete at t=0 (the queue is then empty, so the loop exits without any
delay), enqueue a second command at t=1 — it starts immediately, 1ms after
the previous completion, far less than `COMMAND_DELAY_MS = 250`. -/
theorem queue_spacing_counterexample :
    ¬ (∀ s : QState, QReachable failsNone s →
        spacedOK COMMAND_DELAY_MS s = true) := by
  intro hall
  have r1 : QReachable failsNone (enqueueCmd ⟨Cap.onoff 1, .b true⟩ qInit) :=
    Relation.ReflTransGen.tail Relation.ReflTransGen.refl (QStep.enqueue _ _)
  have r2 : QReachable failsNone
      (applyDoneQ failsNone (enqueueCmd ⟨Cap.onoff 1, .b true⟩ qInit)) :=
    Relation.ReflTransGen.tail r1
      (QStep.applyDone _ ⟨Cap.onoff 1, .b true⟩ 0 rfl)
  have r3 : QReachable failsNone
      { applyDoneQ failsNone (enqueueCmd ⟨Cap.onoff 1, .b true⟩ qInit) with
        now := (applyDoneQ failsNone
          (enqueueCmd ⟨Cap.onoff 1, .b true⟩ qInit)).now + 1 } :=
    Relation.ReflTransGen.tail r2 (QStep.tick _)
  have r4 : QReachable failsNone
      (enqueueCmd ⟨Cap.onoff 1, .b false⟩
        { applyDoneQ failsNone (enqueueCmd ⟨Cap.onoff 1, .b true⟩ qInit) with
          now := (applyDoneQ failsNone
            (enqueueCmd ⟨Cap.onoff 1, .b true⟩ qInit)).now + 1 }) :=
    Relation.ReflTransGen.tail r3 (QStep.enqueue _ _)
  have r5 : QReachable failsNone
      (applyDoneQ failsNone (enqueueCmd ⟨Cap.onoff 1, .b false⟩
        { applyDoneQ failsNone (enqueueCmd ⟨Cap.onoff 1, .b true⟩ qInit) with
          now := (applyDoneQ failsNone
            (enqueueCmd ⟨Cap.onoff 1, .b true⟩ qInit)).now + 1 })) :=
    Relation.ReflTransGen.tail r4
      (QStep.applyDone _ ⟨Cap.onoff 1, .b false⟩ 1 rfl)
  have hv := hall _ r5
  revert hv
  decide

end WallWand
